import Mathlib

/-!
Shallow embedding of the user-account persistence layer in
`src/actors/user.rs` (the `User::add_user`, `User::find_user_by_email`
and `User::delete_user` operations of the `UserStore`).

The relational `users` table is modelled as a `List User` in insertion
order; a diesel `first` with no explicit ordering is modelled as the
first matching row in that order.  External randomness (`uuid::Uuid::new_v4`,
the bcrypt salt) and the clock (`chrono::Utc::now`) are threaded through
as explicit parameters, and timestamps are modelled as naturals.
-/

set_option autoImplicit false

namespace Hacktivity

/-- Encoding of a single Unicode code point into UTF-8 byte values.
Models how Rust's `str::as_bytes` lays out one `char`. -/
def byteEncode (n : Nat) : List Nat :=
  if n < 0x80 then [n]
  else if n < 0x800 then [0xC0 + n / 0x40, 0x80 + n % 0x40]
  else if n < 0x10000 then
    [0xE0 + n / 0x1000, 0x80 + n / 0x40 % 0x40, 0x80 + n % 0x40]
  else
    [0xF0 + n / 0x40000, 0x80 + n / 0x1000 % 0x40, 0x80 + n / 0x40 % 0x40,
      0x80 + n % 0x40]

/-- The UTF-8 byte sequence of a string: models `str::as_bytes` on the
Rust side, so that the bcrypt 72-byte truncation acts on bytes. -/
def strBytes (s : String) : List Nat :=
  (s.data.map Char.toNat).foldr (fun n acc => byteEncode n ++ acc) []

/-- Errors of the external `bcrypt` crate that are reachable from this
code: a work-factor cost outside the allowed `4..=31` range (returned by
`bcrypt::hash`), and a malformed stored hash (returned by `bcrypt::verify`). -/
inductive BcryptError where
  | invalidCost
  | invalidHash
deriving Repr, DecidableEq

/-- Modelled from the spec: the stored credential of a `User` row.  In the
Rust source the column is text, holding either (never, by §3 of the spec)
a plaintext or a bcrypt digest string; the model keeps the two shapes as
distinguishable constructors so that "the stored password is not the
plaintext input" is statable.  A bcrypt digest is determined by the cost,
the salt and the digest value computed from the truncated password bytes. -/
inductive PasswordField where
  | plaintext (s : String)
  | hashed (cost salt digest : Nat)
deriving Repr, DecidableEq

/-- bcrypt uses only the first 72 bytes of the password. -/
def bcryptTruncate (bytes : List Nat) : List Nat := bytes.take 72

/-- Modelled from the spec: the one-way digest of the external bcrypt
algorithm, a deterministic mixing of the truncated password bytes with the
salt and cost (64-bit arithmetic).  Only determinism in
`(cost, salt, truncated bytes)` is relied upon, matching the spec's
"verification re-runs the function and compares digests". -/
def bcryptDigest (cost salt : Nat) (bytes : List Nat) : Nat :=
  (bcryptTruncate bytes).foldl
    (fun a b => (a * 257 + b + cost + 1) % 2 ^ 64) (salt % 2 ^ 64)

/-- The `bcrypt::DEFAULT_COST` work factor. -/
def DEFAULT_COST : Nat := 12

/-- Model of `bcrypt::hash(password, cost)` with the salt drawn by the crate's RNG
made explicit: rejects a cost outside `4..=31`, otherwise digests the
password truncated to 72 bytes.  No length check is performed on the
password itself. -/
def bcrypt.hash (cost salt : Nat) (password : String) :
    Except BcryptError PasswordField :=
  if cost < 4 ∨ 31 < cost then .error .invalidCost
  else .ok (.hashed cost salt (bcryptDigest cost salt (strBytes password)))

/-- Model of `bcrypt::verify(password, stored)`: re-runs the digest with the cost
and salt recorded in the stored value and compares; a stored value that is
not a bcrypt digest does not parse. -/
def bcrypt.verify (password : String) : PasswordField → Except BcryptError Bool
  | .plaintext _ => .error .invalidHash
  | .hashed c s d => .ok (bcryptDigest c s (strBytes password) == d)

/-- The diesel result errors reachable from this code: `Error::NotFound`
(from `first` on an empty result set) and any other database-side failure
(connectivity, constraint violation, ...), which the deterministic
semantics below never produces but the error type carries. -/
inductive DieselError where
  | notFound
  | databaseError (cause : String)
deriving Repr, DecidableEq

/-- Model of `type DbError = Box<dyn std::error::Error + Send + Sync>`: the boxed
error still holds the concrete library error, so the model keeps the sum
of the two sources. -/
inductive DbError where
  | bcrypt (e : BcryptError)
  | diesel (e : DieselError)
deriving Repr, DecidableEq

/-- The error taxonomy of §7 of the spec. -/
inductive ErrorKind where
  | HashingError
  | NotFound
  | PersistenceError
deriving Repr, DecidableEq

/-- Classification of a returned `DbError` into the §7 taxonomy, as a
caller would classify the boxed error by its contained library error. -/
def classifyDbError : DbError → ErrorKind
  | .bcrypt _ => .HashingError
  | .diesel .notFound => .NotFound
  | .diesel (.databaseError _) => .PersistenceError

/-- Modelled from the spec (§3): the persisted `User` row of
`crate::models::user_model`, whose source file is not in the repository
snapshot.  `id` is the uuid, timestamps are UTC instants modelled as
naturals, `password` holds the stored credential. -/
structure User where
  id : Nat
  full_name : String
  email : String
  password : PasswordField
  created_at : Nat
  updated_at : Nat
deriving Repr, DecidableEq

/-- Modelled from the spec (§3): the `CreateUser` input DTO of
`crate::models::user_model` — full name, email and plaintext password;
no id and no timestamps are supplied by the caller. -/
structure CreateUser where
  full_name : String
  email : String
  password : String
deriving Repr, DecidableEq

/-- The `users` relation, in insertion order. -/
abbrev Db := List User

/-- Model of `users.filter(email.eq(user_email)).first::<User>(conn)`: the first
row whose `email` column equals the argument exactly, or diesel's
`NotFound`. -/
def firstUserByEmail (db : Db) (user_email : String) : Except DbError User :=
  match db.find? (fun u => u.email == user_email) with
  | some u => .ok u
  | none => .error (.diesel .notFound)

/-- Body of `User::add_user`, with the bcrypt cost kept as a parameter
(the source instantiates it with `DEFAULT_COST`): hash the password (the
`?` aborts before any insert on failure), build the row with a fresh uuid
and one captured instant for both timestamps, and insert it. -/
def User.add_user_with_cost (cost : Nat) (db : Db) (data : CreateUser)
    (uuid salt now : Nat) : Except DbError User × Db :=
  match bcrypt.hash cost salt data.password with
  | .error e => (.error (.bcrypt e), db)
  | .ok pwh =>
    let new_user : User := ⟨uuid, data.full_name, data.email, pwh, now, now⟩
    (.ok new_user, db ++ [new_user])

/-- The operation `User::add_user(conn, data)`: the body above at `DEFAULT_COST`, with
the generated uuid, the drawn salt and the captured current instant made
explicit. -/
def User.add_user (db : Db) (data : CreateUser) (uuid salt now : Nat) :
    Except DbError User × Db :=
  User.add_user_with_cost DEFAULT_COST db data uuid salt now

/-- The operation `User::find_user_by_email(conn, user_email)`: read-only lookup. -/
def User.find_user_by_email (db : Db) (user_email : String) :
    Except DbError User :=
  firstUserByEmail db user_email

/-- The operation `User::delete_user(conn, user_email)`: locate the first matching row
(the `?` aborts with `NotFound` before any delete statement when none
matches), then delete every row whose email equals the argument, and
return the located row's email. -/
def User.delete_user (db : Db) (user_email : String) :
    Except DbError String × Db :=
  match firstUserByEmail db user_email with
  | .error e => (.error e, db)
  | .ok result => (.ok result.email, db.filter (fun u => !(u.email == user_email)))

/-- The row `add_user` constructs and persists for a given input and
given drawn randomness and instant. -/
def mkUser (data : CreateUser) (uuid salt now : Nat) : User :=
  ⟨uuid, data.full_name, data.email,
    .hashed DEFAULT_COST salt (bcryptDigest DEFAULT_COST salt (strBytes data.password)),
    now, now⟩

/-- The state-mutating operations of the store, for reasoning about
reachable database states (`find_user_by_email` is read-only). -/
inductive StoreOp where
  | addOp (data : CreateUser) (uuid salt now : Nat)
  | deleteOp (user_email : String)
deriving Repr, DecidableEq

/-- The database state after one operation. -/
def applyOp (db : Db) : StoreOp → Db
  | .addOp data uuid salt now => (User.add_user db data uuid salt now).2
  | .deleteOp e => (User.delete_user db e).2

/-- The database state after a sequence of operations from the empty
relation. -/
def runOps (ops : List StoreOp) : Db := ops.foldl applyOp []

/-- Whether an operation is an `add_user` call with the given email. -/
def opAddsEmail (e : String) : StoreOp → Bool
  | .addOp data _ _ _ => data.email == e
  | .deleteOp _ => false

end Hacktivity
namespace Hacktivity

universe u v

instance {ε : Type u} {α : Type v} [DecidableEq ε] [DecidableEq α] :
    DecidableEq (Except ε α) := fun a b =>
  match a, b with
  | .error x, .error y =>
    if h : x = y then .isTrue (by rw [h])
    else .isFalse (fun hc => h (Except.error.inj hc))
  | .error _, .ok _ => .isFalse (fun hc => Except.noConfusion hc)
  | .ok _, .error _ => .isFalse (fun hc => Except.noConfusion hc)
  | .ok x, .ok y =>
    if h : x = y then .isTrue (by rw [h])
    else .isFalse (fun hc => h (Except.ok.inj hc))

/-- Running `add_user` at the default cost always succeeds and appends exactly the
constructed row: `DEFAULT_COST = 12` lies inside bcrypt's `4..=31`. -/
theorem add_user_run (db : Db) (data : CreateUser) (uuid salt now : Nat) :
    User.add_user db data uuid salt now
      = (.ok (mkUser data uuid salt now), db ++ [mkUser data uuid salt now]) := rfl

/-- A `find?` over an append skips a block with no match. -/
theorem find?_skip {α : Type u} (p : α → Bool) (l₁ l₂ : List α)
    (h : ∀ a ∈ l₁, p a = false) :
    (l₁ ++ l₂).find? p = l₂.find? p := by
  have h1 : l₁.find? p = none := by
    rw [List.find?_eq_none]
    intro a ha
    simp [h a ha]
  simp [List.find?_append, h1]

/-- The lookup step fails with diesel's `NotFound` when no row carries the
email. -/
theorem firstUser_no_match (db : Db) (e : String)
    (h : ∀ u ∈ db, u.email ≠ e) :
    firstUserByEmail db e = .error (.diesel .notFound) := by
  have hn : db.find? (fun u => u.email == e) = none := by
    rw [List.find?_eq_none]
    intro u hu
    simpa using h u hu
  simp [firstUserByEmail, hn]

/-- A successful lookup returns a stored row whose email equals the
argument exactly. -/
theorem firstUser_ok {db : Db} {e : String} {u : User}
    (h : firstUserByEmail db e = .ok u) : u ∈ db ∧ u.email = e := by
  unfold firstUserByEmail at h
  cases hf : db.find? (fun v => v.email == e) with
  | none => rw [hf] at h; exact absurd h (by simp)
  | some w =>
    rw [hf] at h
    have hw : w = u := by simpa using h
    subst hw
    exact ⟨List.mem_of_find?_eq_some hf, by simpa using List.find?_some hf⟩

/-- Running `delete_user` on an absent email fails before the delete statement and
leaves the relation untouched. -/
theorem delete_user_no_match (db : Db) (e : String)
    (h : ∀ u ∈ db, u.email ≠ e) :
    User.delete_user db e = (.error (.diesel .notFound), db) := by
  simp [User.delete_user, firstUser_no_match db e h]

/-- Running `delete_user` on a present email succeeds, echoes the email, and
filters out every matching row. -/
theorem delete_user_found {db : Db} {e : String} {u : User}
    (hu : u ∈ db) (he : u.email = e) :
    User.delete_user db e
      = (.ok e, db.filter (fun v => !(v.email == e))) := by
  unfold User.delete_user firstUserByEmail
  cases hf : db.find? (fun v => v.email == e) with
  | none =>
    rw [List.find?_eq_none] at hf
    exact absurd (by simpa using he) (hf u hu)
  | some w =>
    have hw : w.email = e := by simpa using List.find?_some hf
    simp [hw]

/-- Rows surviving the delete statement are prior rows with a different
email. -/
theorem mem_filter_email {db : Db} {e : String} {v : User}
    (h : v ∈ db.filter (fun u => !(u.email == e))) : v ∈ db ∧ v.email ≠ e := by
  rw [List.mem_filter] at h
  refine ⟨h.1, ?_⟩
  simpa using h.2

/-- Any row present after one operation was either already present or was
just constructed by an `add_user` call. -/
theorem mem_applyOp {db : Db} {op : StoreOp} {u : User}
    (h : u ∈ applyOp db op) :
    u ∈ db ∨ ∃ data uuid salt now, op = .addOp data uuid salt now
      ∧ u = mkUser data uuid salt now := by
  cases op with
  | addOp data uuid salt now =>
    rw [applyOp, add_user_run] at h
    rcases List.mem_append.mp h with hl | hr
    · exact Or.inl hl
    · exact Or.inr ⟨data, uuid, salt, now, rfl, by simpa using hr⟩
  | deleteOp e =>
    rw [applyOp, User.delete_user] at h
    cases hf : firstUserByEmail db e with
    | error err => rw [hf] at h; exact Or.inl h
    | ok w =>
      rw [hf] at h
      exact Or.inl (mem_filter_email h).1

/-- Generalisation over the start state: every row reachable by a sequence
of operations from `db` was in `db` or stems from an `add_user` of its
email, with equal timestamps. -/
theorem mem_foldl_applyOp (ops : List StoreOp) :
    ∀ db u, u ∈ ops.foldl applyOp db →
      u ∈ db ∨ ((∃ op ∈ ops, opAddsEmail u.email op = true)
        ∧ u.created_at = u.updated_at) := by
  induction ops with
  | nil => intro db u h; exact Or.inl (by simpa using h)
  | cons op rest ih =>
    intro db u h
    rw [List.foldl_cons] at h
    rcases ih (applyOp db op) u h with hmem | ⟨⟨op2, hop2, hadd⟩, heq⟩
    · rcases mem_applyOp hmem with hdb | ⟨data, uuid, salt, now, hop, hu⟩
      · exact Or.inl hdb
      · refine Or.inr ⟨⟨op, List.mem_cons_self op rest, ?_⟩, by simp [hu, mkUser]⟩
        subst hop
        simp [opAddsEmail, hu, mkUser]
    · exact Or.inr ⟨⟨op2, List.mem_cons_of_mem op hop2, hadd⟩, heq⟩

/-- Every row in a reachable database state stems from an `add_user` call
with its email and has equal creation and update timestamps. -/
theorem mem_runOps {ops : List StoreOp} {u : User} (h : u ∈ runOps ops) :
    (∃ op ∈ ops, opAddsEmail u.email op = true) ∧ u.created_at = u.updated_at := by
  rcases mem_foldl_applyOp ops [] u h with hmem | hr
  · exact absurd hmem (List.not_mem_nil u)
  · exact hr

/-- C1: for every valid `CreateUser` input (against a store holding no row
with that email yet), a successful `add_user` followed by
`find_user_by_email` with the same email returns a record whose
`full_name` and `email` equal the input's, whose stored `password` is not
the plaintext input password, and which verifies against it via
`bcrypt::verify`. -/
theorem add_then_find_returns_matching_hashed_record
    (db : Db) (data : CreateUser) (uuid salt now : Nat)
    (hfresh : ∀ u ∈ db, u.email ≠ data.email) :
    ∃ u : User,
      (User.add_user db data uuid salt now).1 = .ok u ∧
      User.find_user_by_email (User.add_user db data uuid salt now).2
        data.email = .ok u ∧
      u.full_name = data.full_name ∧ u.email = data.email ∧
      u.password ≠ PasswordField.plaintext data.password ∧
      bcrypt.verify data.password u.password = .ok true := by
  refine ⟨mkUser data uuid salt now, by rw [add_user_run], ?_, rfl, rfl,
    by simp [mkUser], ?_⟩
  · rw [add_user_run]
    unfold User.find_user_by_email firstUserByEmail
    rw [find?_skip _ db _ (fun u hu => by simpa using hfresh u hu)]
    simp [List.find?, mkUser]
  · simp [bcrypt.verify, mkUser]

/-- Witness for C1: the §8 scenario (Ada Lovelace) from the empty store. -/
theorem add_then_find_returns_matching_hashed_record_witness :
    (∀ u ∈ ([] : Db), u.email ≠ "ada@example.com") ∧
    ∃ u : User,
      (User.add_user [] ⟨"Ada Lovelace", "ada@example.com", "s3cr3t"⟩ 7 3 100).1
        = .ok u ∧
      User.find_user_by_email
        (User.add_user [] ⟨"Ada Lovelace", "ada@example.com", "s3cr3t"⟩ 7 3 100).2
        "ada@example.com" = .ok u ∧
      u.full_name = "Ada Lovelace" ∧ u.email = "ada@example.com" ∧
      u.password ≠ PasswordField.plaintext ("s3cr3t") ∧
      bcrypt.verify ("s3cr3t") u.password = .ok true :=
  ⟨by simp,
    add_then_find_returns_matching_hashed_record []
      ⟨"Ada Lovelace", "ada@example.com", "s3cr3t"⟩ 7 3 100 (by simp)⟩

/-- C2: every successful `add_user` returns a `User` whose `id` is the
uuid freshly generated during the call (and independent of the caller's
input, which carries no id field), and whose `created_at` and
`updated_at` both equal the one current instant captured during the
call. -/
theorem add_user_generates_id_and_captures_one_instant
    (db : Db) (data : CreateUser) (uuid salt now : Nat) :
    ∃ u : User, (User.add_user db data uuid salt now).1 = .ok u ∧
      u.id = uuid ∧ u.created_at = now ∧ u.updated_at = now ∧
      ∀ data' : CreateUser, ∃ u' : User,
        (User.add_user db data' uuid salt now).1 = .ok u' ∧ u'.id = u.id :=
  ⟨mkUser data uuid salt now, by rw [add_user_run], rfl, rfl, rfl,
    fun data' => ⟨mkUser data' uuid salt now, by rw [add_user_run], rfl⟩⟩

/-- A failing lookup is exactly diesel's `NotFound`, and happens exactly
when no stored row carries the email. -/
theorem firstUser_error {db : Db} {e : String} {er : DbError}
    (h : firstUserByEmail db e = .error er) :
    er = .diesel .notFound ∧ ∀ u ∈ db, u.email ≠ e := by
  unfold firstUserByEmail at h
  cases hf : db.find? (fun v => v.email == e) with
  | none =>
    rw [hf] at h
    rw [List.find?_eq_none] at hf
    refine ⟨by simpa using h.symm, fun u hu he => hf u hu (by simpa using he)⟩
  | some w => rw [hf] at h; exact absurd h (by simp)

/-- C3: `find_user_by_email` returns `NotFound` for every email never
passed to `add_user` over any reachable store (and, on any store, for
every email no stored row carries); a returned row always carries exactly
the looked-up email (no normalization), and a unique matching row is the
one returned. -/
theorem find_by_email_not_found_and_exact_equality
    (ops : List StoreOp) (db : Db) (e : String) :
    ((∀ op ∈ ops, opAddsEmail e op = false) →
      User.find_user_by_email (runOps ops) e = .error (.diesel .notFound)) ∧
    ((∀ u ∈ db, u.email ≠ e) →
      User.find_user_by_email db e = .error (.diesel .notFound)) ∧
    (∀ u : User, User.find_user_by_email db e = .ok u → u ∈ db ∧ u.email = e) ∧
    (∀ u : User, u ∈ db → u.email = e →
      (∀ v ∈ db, v.email = e → v = u) →
      User.find_user_by_email db e = .ok u) := by
  refine ⟨?_, firstUser_no_match db e, fun u h => firstUser_ok h, ?_⟩
  · intro hops
    apply firstUser_no_match
    intro u hu he
    rcases (mem_runOps hu).1 with ⟨op, hop, hadd⟩
    rw [he] at hadd
    rw [hops op hop] at hadd
    exact Bool.false_ne_true hadd
  · intro u hu he huniq
    unfold User.find_user_by_email firstUserByEmail
    cases hf : db.find? (fun v => v.email == e) with
    | none =>
      rw [List.find?_eq_none] at hf
      exact absurd (by simpa using he) (hf u hu)
    | some w =>
      have hw : w.email = e := by simpa using List.find?_some hf
      simp [huniq w (List.mem_of_find?_eq_some hf) hw]

/-- Witness for C3: a never-added email over a reachable store; lookup of
a case-variant email misses (exact comparison); a unique match is
returned. -/
theorem find_by_email_not_found_and_exact_equality_witness :
    User.find_user_by_email
      (runOps [.deleteOp ("x"), .addOp ⟨"Ada", "ada@example.com", "pw"⟩ 1 2 3])
      "bob@example.com" = .error (.diesel .notFound) ∧
    User.find_user_by_email [mkUser ⟨"Ada", "ADA@example.com", "pw"⟩ 1 2 3]
      "ada@example.com" = .error (.diesel .notFound) ∧
    User.find_user_by_email [mkUser ⟨"Ada", "ada@example.com", "pw"⟩ 1 2 3]
      "ada@example.com" = .ok (mkUser ⟨"Ada", "ada@example.com", "pw"⟩ 1 2 3) :=
  ⟨(find_by_email_not_found_and_exact_equality
      [.deleteOp ("x"), .addOp ⟨"Ada", "ada@example.com", "pw"⟩ 1 2 3]
      [] "bob@example.com").1 (by decide),
   (find_by_email_not_found_and_exact_equality []
      [mkUser ⟨"Ada", "ADA@example.com", "pw"⟩ 1 2 3] "ada@example.com").2.1
      (by decide),
   (find_by_email_not_found_and_exact_equality []
      [mkUser ⟨"Ada", "ada@example.com", "pw"⟩ 1 2 3] "ada@example.com").2.2.2
      (mkUser ⟨"Ada", "ada@example.com", "pw"⟩ 1 2 3) (by decide) (by decide)
      (by decide)⟩

/-- C4: a successful `delete_user` returns the email of the removed
account: the `email` field of the record located by the lookup step,
which equals the argument. -/
theorem delete_user_echoes_located_email (db : Db) (e s : String) (db2 : Db)
    (h : User.delete_user db e = (.ok s, db2)) :
    s = e ∧ ∃ u : User, firstUserByEmail db e = .ok u ∧ u ∈ db
      ∧ u.email = e ∧ s = u.email := by
  unfold User.delete_user at h
  cases hf : firstUserByEmail db e with
  | error err =>
    rw [hf] at h
    exact absurd (congrArg Prod.fst h) (by simp)
  | ok w =>
    rw [hf] at h
    have hs : s = w.email := by
      have h1 := congrArg Prod.fst h
      simpa using h1.symm
    obtain ⟨hmem, hemail⟩ := firstUser_ok hf
    exact ⟨hs.trans hemail, w, rfl, hmem, hemail, hs⟩

/-- Witness for C4: deleting the Ada record echoes its email. -/
theorem delete_user_echoes_located_email_witness :
    (User.delete_user [mkUser ⟨"Ada", "ada@example.com", "pw"⟩ 1 2 3]
        "ada@example.com" = (.ok "ada@example.com", [])) ∧
    "ada@example.com" = "ada@example.com" ∧
    ∃ u : User,
      firstUserByEmail [mkUser ⟨"Ada", "ada@example.com", "pw"⟩ 1 2 3]
        "ada@example.com" = .ok u ∧
      u ∈ [mkUser ⟨"Ada", "ada@example.com", "pw"⟩ 1 2 3] ∧
      u.email = "ada@example.com" ∧ "ada@example.com" = u.email :=
  ⟨by decide,
    delete_user_echoes_located_email
      [mkUser ⟨"Ada", "ada@example.com", "pw"⟩ 1 2 3]
      "ada@example.com" "ada@example.com" [] (by decide)⟩

/-- C5: `delete_user` on an email with no matching row returns `NotFound`
and leaves the store unchanged (the lookup `?` aborts before the delete
statement); a second `delete_user` in succession for the same email
always returns `NotFound`. -/
theorem delete_user_absent_not_found_store_unchanged (db : Db) (e : String) :
    ((∀ u ∈ db, u.email ≠ e) →
      User.delete_user db e = (.error (.diesel .notFound), db)) ∧
    (User.delete_user (User.delete_user db e).2 e).1
      = .error (.diesel .notFound) := by
  refine ⟨delete_user_no_match db e, ?_⟩
  cases hf : firstUserByEmail db e with
  | error err =>
    obtain ⟨her, hnone⟩ := firstUser_error hf
    have h1 : User.delete_user db e = (.error err, db) := by
      unfold User.delete_user
      rw [hf]
    rw [h1]
    rw [delete_user_no_match db e hnone]
  | ok w =>
    obtain ⟨hmem, hemail⟩ := firstUser_ok hf
    rw [delete_user_found hmem hemail]
    have h2 := delete_user_no_match (db.filter (fun v => !(v.email == e))) e
      (fun v hv => (mem_filter_email hv).2)
    rw [h2]

/-- Witness for C5: deleting an absent email from a one-row store fails
without mutating it, and the repeated delete also fails. -/
theorem delete_user_absent_not_found_store_unchanged_witness :
    (User.delete_user [mkUser ⟨"Ada", "ada@example.com", "pw"⟩ 1 2 3]
        "bob@example.com"
      = (.error (.diesel .notFound),
          [mkUser ⟨"Ada", "ada@example.com", "pw"⟩ 1 2 3])) ∧
    (User.delete_user
        (User.delete_user [mkUser ⟨"Ada", "ada@example.com", "pw"⟩ 1 2 3]
          "ada@example.com").2 "ada@example.com").1
      = .error (.diesel .notFound) :=
  ⟨(delete_user_absent_not_found_store_unchanged
      [mkUser ⟨"Ada", "ada@example.com", "pw"⟩ 1 2 3] "bob@example.com").1
      (by decide),
   (delete_user_absent_not_found_store_unchanged
      [mkUser ⟨"Ada", "ada@example.com", "pw"⟩ 1 2 3] "ada@example.com").2⟩

/-- C6: after a successful `add_user` followed by a successful
`delete_user` of the same email, `find_user_by_email` returns `NotFound`;
the delete step first locates a matching record and then removes every
row whose email equals the argument. -/
theorem add_then_delete_then_find_not_found
    (db : Db) (data : CreateUser) (uuid salt now : Nat) :
    ∃ u : User,
      User.add_user db data uuid salt now = (.ok u, db ++ [u]) ∧
      User.delete_user (db ++ [u]) data.email
        = (.ok data.email,
            (db ++ [u]).filter (fun v => !(v.email == data.email))) ∧
      User.find_user_by_email
        (User.delete_user (db ++ [u]) data.email).2 data.email
        = .error (.diesel .notFound) ∧
      ((User.delete_user (db ++ [u]) data.email).2.all
        (fun v => !(v.email == data.email)) = true) := by
  have hmem : mkUser data uuid salt now ∈ db ++ [mkUser data uuid salt now] := by
    simp
  have hd := delete_user_found (e := data.email) hmem rfl
  refine ⟨mkUser data uuid salt now, add_user_run db data uuid salt now, hd, ?_, ?_⟩
  · rw [hd]
    exact firstUser_no_match _ _ (fun v hv => (mem_filter_email hv).2)
  · rw [hd]
    rw [List.all_eq_true]
    intro v hv
    simpa using (mem_filter_email hv).2

/-- C7: `add_user` exposes no partial state: on any error the relation is
untouched (the hash `?` aborts before the insert), and on success exactly
one row is appended, with every field set — id, name, email, the bcrypt
digest, and both timestamps. -/
theorem add_user_all_or_nothing (cost : Nat) (db : Db) (data : CreateUser)
    (uuid salt now : Nat) :
    (∀ er : DbError,
      (User.add_user_with_cost cost db data uuid salt now).1 = .error er →
      (User.add_user_with_cost cost db data uuid salt now).2 = db) ∧
    ∃ u : User, User.add_user db data uuid salt now = (.ok u, db ++ [u]) ∧
      u.id = uuid ∧ u.full_name = data.full_name ∧ u.email = data.email ∧
      u.password = PasswordField.hashed DEFAULT_COST salt
        (bcryptDigest DEFAULT_COST salt (strBytes data.password)) ∧
      u.created_at = now ∧ u.updated_at = now := by
  constructor
  · intro er her
    unfold User.add_user_with_cost at her ⊢
    cases hh : bcrypt.hash cost salt data.password with
    | error e => rfl
    | ok pwh =>
      rw [hh] at her
      exact absurd her (by simp)
  · exact ⟨mkUser data uuid salt now, add_user_run db data uuid salt now,
      rfl, rfl, rfl, rfl, rfl, rfl⟩

/-- Witness for C7: an out-of-range cost makes the hash fail and the
store is left untouched; the default-cost call appends the full row. -/
theorem add_user_all_or_nothing_witness :
    (User.add_user_with_cost 3 [] ⟨"Ada", "ada@example.com", "pw"⟩ 1 2 3).2
      = [] ∧
    ∃ u : User,
      User.add_user [] ⟨"Ada", "ada@example.com", "pw"⟩ 1 2 3 = (.ok u, [u]) ∧
      u.id = 1 ∧ u.full_name = "Ada" ∧ u.email = "ada@example.com" ∧
      u.password = PasswordField.hashed DEFAULT_COST 2
        (bcryptDigest DEFAULT_COST 2 (strBytes ("pw"))) ∧
      u.created_at = 3 ∧ u.updated_at = 3 :=
  ⟨(add_user_all_or_nothing 3 [] ⟨"Ada", "ada@example.com", "pw"⟩ 1 2 3).1
      (.bcrypt .invalidCost) (by decide),
   (add_user_all_or_nothing 12 [] ⟨"Ada", "ada@example.com", "pw"⟩ 1 2 3).2⟩

/-- C8: every failure of the three operations surfaces as an error value
the caller can classify into the §7 taxonomy — a hashing failure
propagates as the bcrypt error (`HashingError`), a missed lookup as
diesel `NotFound`, any other database failure as `PersistenceError` — the
three kinds are pairwise distinct, and a success means no step's failure
was swallowed (the stored password is exactly the hash the bcrypt call
returned). -/
theorem every_failure_propagates_classified (cost : Nat) (db : Db)
    (data : CreateUser) (uuid salt now : Nat) (e : String) :
    (∀ er : BcryptError, bcrypt.hash cost salt data.password = .error er →
      (User.add_user_with_cost cost db data uuid salt now).1
          = .error (.bcrypt er) ∧
        classifyDbError (.bcrypt er) = .HashingError) ∧
    (∀ u : User,
      (User.add_user_with_cost cost db data uuid salt now).1 = .ok u →
      bcrypt.hash cost salt data.password = .ok u.password) ∧
    (∀ er : DbError, User.find_user_by_email db e = .error er →
      er = .diesel .notFound ∧ classifyDbError er = .NotFound) ∧
    (∀ er : DbError, (User.delete_user db e).1 = .error er →
      er = .diesel .notFound ∧ classifyDbError er = .NotFound) ∧
    (∀ cause : String,
      classifyDbError (.diesel (.databaseError cause)) = .PersistenceError) ∧
    (∀ (eb : BcryptError) (cause : String),
      classifyDbError (.bcrypt eb) ≠ classifyDbError (.diesel .notFound) ∧
      classifyDbError (.bcrypt eb)
        ≠ classifyDbError (.diesel (.databaseError cause)) ∧
      classifyDbError (.diesel .notFound)
        ≠ classifyDbError (.diesel (.databaseError cause))) := by
  refine ⟨?_, ?_, ?_, ?_, fun cause => rfl, fun eb cause => ?_⟩
  · intro er h
    unfold User.add_user_with_cost
    rw [h]
    exact ⟨rfl, rfl⟩
  · intro u h
    unfold User.add_user_with_cost at h
    cases hh : bcrypt.hash cost salt data.password with
    | error e2 =>
      rw [hh] at h
      exact absurd h (by simp)
    | ok pwh =>
      rw [hh] at h
      have hu : u = ⟨uuid, data.full_name, data.email, pwh, now, now⟩ := by
        simpa using h.symm
      rw [hu]
  · intro er h
    have h1 := (firstUser_error h).1
    rw [h1]
    exact ⟨rfl, rfl⟩
  · intro er h
    unfold User.delete_user at h
    cases hf : firstUserByEmail db e with
    | error err =>
      rw [hf] at h
      have her : err = er := by simpa using h
      have h1 := (firstUser_error hf).1
      rw [← her, h1]
      exact ⟨rfl, rfl⟩
    | ok w =>
      rw [hf] at h
      exact absurd h (by simp)
  · exact ⟨by simp [classifyDbError], by simp [classifyDbError],
      by simp [classifyDbError]⟩

/-- Witness for C8 at concrete inputs: a cost-3 hash failure propagates
out of `add_user_with_cost`, the cost-12 success stores exactly the
returned hash, and lookup and delete on an empty store fail as
`NotFound`. -/
theorem every_failure_propagates_classified_witness :
    ((User.add_user_with_cost 3 [] ⟨"Ada", "ada@example.com", "pw"⟩ 1 2 3).1
        = .error (.bcrypt .invalidCost) ∧
      classifyDbError (.bcrypt .invalidCost) = .HashingError) ∧
    bcrypt.hash 12 2 "pw" = .ok (mkUser ⟨"Ada", "ada@example.com", "pw"⟩ 1 2 3).password ∧
    ((DbError.diesel .notFound) = .diesel .notFound ∧
      classifyDbError (.diesel .notFound) = .NotFound) ∧
    ((DbError.diesel .notFound) = .diesel .notFound ∧
      classifyDbError (.diesel .notFound) = .NotFound) ∧
    classifyDbError (.diesel (.databaseError ("io"))) = .PersistenceError ∧
    classifyDbError (.bcrypt .invalidCost) ≠ classifyDbError (.diesel .notFound) :=
  ⟨(every_failure_propagates_classified 3 [] ⟨"Ada", "ada@example.com", "pw"⟩
      1 2 3 "x").1 .invalidCost (by decide),
   (every_failure_propagates_classified 12 [] ⟨"Ada", "ada@example.com", "pw"⟩
      1 2 3 "x").2.1 (mkUser ⟨"Ada", "ada@example.com", "pw"⟩ 1 2 3) (by decide),
   (every_failure_propagates_classified 12 ([] : Db)
      ⟨"Ada", "ada@example.com", "pw"⟩ 1 2 3 "x").2.2.1 (.diesel .notFound)
      (by decide),
   (every_failure_propagates_classified 12 ([] : Db)
      ⟨"Ada", "ada@example.com", "pw"⟩ 1 2 3 "x").2.2.2.1 (.diesel .notFound)
      (by decide),
   (every_failure_propagates_classified 12 ([] : Db)
      ⟨"Ada", "ada@example.com", "pw"⟩ 1 2 3 "x").2.2.2.2.1 "io",
   ((every_failure_propagates_classified 12 ([] : Db)
      ⟨"Ada", "ada@example.com", "pw"⟩ 1 2 3 "x").2.2.2.2.2 .invalidCost ("io")).1⟩

/-- C9: in every reachable store state the invariant
`created_at ≤ updated_at` holds for every row; `add_user` establishes it
by assigning one instant to both fields, and no operation changes either
field of a surviving row (a row after an operation is a prior row or the
freshly created one, which has equal fields). -/
theorem created_at_le_updated_at_invariant (ops : List StoreOp) (db : Db)
    (data : CreateUser) (uuid salt now : Nat) (op : StoreOp) :
    (∀ u ∈ runOps ops, u.created_at ≤ u.updated_at) ∧
    (∃ u : User, (User.add_user db data uuid salt now).1 = .ok u ∧
      u.created_at = now ∧ u.updated_at = now) ∧
    (∀ u ∈ applyOp db op, u ∈ db ∨ u.created_at = u.updated_at) := by
  refine ⟨fun u hu => le_of_eq (mem_runOps hu).2,
    ⟨mkUser data uuid salt now, by rw [add_user_run], rfl, rfl⟩, ?_⟩
  intro u hu
  rcases mem_applyOp hu with h | ⟨d, uu, ss, nn, _, hmk⟩
  · exact Or.inl h
  · exact Or.inr (by simp [hmk, mkUser])

/-- Witness for C9: the invariant at a concrete reachable state and a
concrete surviving row. -/
theorem created_at_le_updated_at_invariant_witness :
    (mkUser ⟨"Ada", "ada@example.com", "pw"⟩ 1 2 3).created_at
      ≤ (mkUser ⟨"Ada", "ada@example.com", "pw"⟩ 1 2 3).updated_at ∧
    (∃ u : User,
      (User.add_user [] ⟨"Ada", "ada@example.com", "pw"⟩ 1 2 3).1 = .ok u ∧
      u.created_at = 3 ∧ u.updated_at = 3) ∧
    (mkUser ⟨"Bob", "bob@example.com", "pw"⟩ 4 5 6
        ∈ [mkUser ⟨"Bob", "bob@example.com", "pw"⟩ 4 5 6] ∨
      (mkUser ⟨"Bob", "bob@example.com", "pw"⟩ 4 5 6).created_at
        = (mkUser ⟨"Bob", "bob@example.com", "pw"⟩ 4 5 6).updated_at) :=
  ⟨(created_at_le_updated_at_invariant
      [.addOp ⟨"Ada", "ada@example.com", "pw"⟩ 1 2 3] []
      ⟨"Ada", "ada@example.com", "pw"⟩ 1 2 3 (.deleteOp ("x"))).1
      (mkUser ⟨"Ada", "ada@example.com", "pw"⟩ 1 2 3) (by decide),
   (created_at_le_updated_at_invariant []
      [] ⟨"Ada", "ada@example.com", "pw"⟩ 1 2 3 (.deleteOp ("x"))).2.1,
   (created_at_le_updated_at_invariant []
      [mkUser ⟨"Bob", "bob@example.com", "pw"⟩ 4 5 6]
      ⟨"Ada", "ada@example.com", "pw"⟩ 1 2 3
      (.addOp ⟨"Ada", "ada@example.com", "pw"⟩ 1 2 3)).2.2
      (mkUser ⟨"Bob", "bob@example.com", "pw"⟩ 4 5 6) (by decide)⟩

/-- C10: the bcrypt call uses only the first 72 bytes of the password and
signals no error for any length: two passwords agreeing on that prefix
verify against each other's stored hash, and `add_user` always succeeds
at the default cost regardless of password length. -/
theorem bcrypt_uses_only_72_byte_password_bound (p1 p2 : String) (salt : Nat)
    (h : (strBytes p1).take 72 = (strBytes p2).take 72) :
    (∃ h1 : PasswordField, bcrypt.hash DEFAULT_COST salt p1 = .ok h1 ∧
      bcrypt.verify p2 h1 = .ok true) ∧
    (∀ (db : Db) (data : CreateUser) (uuid salt2 now : Nat), ∃ u : User,
      (User.add_user db data uuid salt2 now).1 = .ok u) := by
  constructor
  · refine ⟨.hashed DEFAULT_COST salt (bcryptDigest DEFAULT_COST salt (strBytes p1)),
      rfl, ?_⟩
    have hd : bcryptDigest DEFAULT_COST salt (strBytes p2)
        = bcryptDigest DEFAULT_COST salt (strBytes p1) := by
      unfold bcryptDigest bcryptTruncate
      rw [h]
    simp [bcrypt.verify, hd]
  · intro db data uuid salt2 now
    exact ⟨mkUser data uuid salt2 now, by rw [add_user_run]⟩

/-- Witness for C10: a 73-byte password and a 73-byte password differing
only in the 73rd byte share the 72-byte prefix, and either's hash
verifies the other. -/
theorem bcrypt_uses_only_72_byte_password_bound_witness :
    ((strBytes (String.mk (List.replicate 73 'a'))).take 72
      = (strBytes (String.mk (List.replicate 72 'a' ++ ['b']))).take 72) ∧
    (∃ h1 : PasswordField,
      bcrypt.hash DEFAULT_COST 5 (String.mk (List.replicate 73 'a')) = .ok h1 ∧
      bcrypt.verify (String.mk (List.replicate 72 'a' ++ ['b'])) h1 = .ok true) ∧
    (∀ (db : Db) (data : CreateUser) (uuid salt2 now : Nat), ∃ u : User,
      (User.add_user db data uuid salt2 now).1 = .ok u) :=
  ⟨by decide,
    (bcrypt_uses_only_72_byte_password_bound (String.mk (List.replicate 73 'a'))
      (String.mk (List.replicate 72 'a' ++ ['b'])) 5 (by decide)).1,
    (bcrypt_uses_only_72_byte_password_bound (String.mk (List.replicate 73 'a'))
      (String.mk (List.replicate 72 'a' ++ ['b'])) 5 (by decide)).2⟩

end Hacktivity
